import Mathlib

/-!
Verification of the data-management layer of the VoiceDo application
(voice-enabled to-do list and smart link manager, vanilla JavaScript).

The Task Store is embedded from `todos.js` (the extended version with
deadlines, priorities, subtasks, categories, filter/sort) and the Link
Store from `links.js`.  Stateful module code becomes explicit state
passing on small state structures; DOM rendering is omitted (it reads the
state but never changes it); every persistence write (a call to the
synchronous `save()` helper, i.e. `Storage.set`) is counted in a `saves`
field so that "persistence is invoked" claims are statable.

Modelling conventions, shared by all definitions below:

* JavaScript strings are Lean `String`s; the sources only ever use ASCII
  case conversion, so `Char.toLower`/`Char.toUpper` are faithful.
* `Date.now()` and the random id suffix are inputs of the program, not
  things it computes: they are passed in an `Env` value.
* Calendar dates: the source stores a deadline as a `YYYY-MM-DD` string
  and converts it with `parseDeadline(s) = new Date(s + 'T00:00:00')`,
  i.e. local midnight of that calendar date; `today` is built the same
  way from the current moment.  This conversion is a strictly monotone
  map from calendar dates to timestamps, and every comparison in the
  source compares two values in its image, so dates are embedded directly
  as integers (day indices) and the current moment enters only through
  `today : Int`.  An absent deadline is `none`; the source's falsy check
  `!todo.deadline` also treats an empty string as absent, and an empty
  string behaves as "no deadline" at every use site, so both are `none`.
-/

/-- Whitespace for JavaScript's `trim` and the regex class `\s`:
WhiteSpace (TAB VT FF SP NBSP ZWNBSP and the Zs category) together with
the LineTerminators (LF CR LS PS). -/
def jsWhitespace (c : Char) : Bool :=
  let n := c.toNat
  (9 ≤ n && n ≤ 13) || n = 32 || n = 160 || n = 5760 ||
  (8192 ≤ n && n ≤ 8202) || n = 8232 || n = 8233 || n = 8239 ||
  n = 8287 || n = 12288 || n = 65279

/-- JavaScript `String.prototype.trim`: drop leading and trailing
whitespace. -/
def jsTrim (s : String) : String :=
  ⟨((s.data.dropWhile jsWhitespace).reverse.dropWhile jsWhitespace).reverse⟩

/-- Environment inputs of one store call: the current `Date.now()` value
and the random suffix that `Math.random().toString(36).slice(2, 7)`
produced. -/
structure Env where
  nowMs : Int
  suffix : String
deriving Repr, DecidableEq

/-- From `todos.js`: `genId(prefix)` builds
a string of shape `prefix_<Date.now()>_<random suffix>`. -/
def genId (pre : String) (env : Env) : String :=
  pre ++ "_" ++ toString env.nowMs ++ "_" ++ env.suffix

/-- Subtask record: `{id, text, completed}` (from the `addSubtask` shape
in `todos.js`). -/
structure SubtaskRec where
  id : String
  text : String
  completed : Bool
deriving Repr, DecidableEq

/-- Task record, the element shape of the `todos` array in `todos.js`.
`deadline` is the parsed calendar date (see the header comment);
`priority` is the raw string the source stores (the source's type comment
says 'low'|'medium'|'high' but nothing narrows the stored value). -/
structure TaskRec where
  id : String
  text : String
  completed : Bool
  createdAt : Int
  deadline : Option Int
  priority : String
  subtasks : List SubtaskRec
  categories : List String
deriving Repr, DecidableEq

/-- State of the Task Store module: the `todos` array plus a counter of
`save()` calls (each `save()` is one `Storage.set` write). -/
structure TodoState where
  tasks : List TaskRec
  saves : Nat
deriving Repr, DecidableEq

/-- The options bag of `add(text, opts)`: `{deadline?, priority?,
categories?}`.  A missing property is `none`; JavaScript's falsy
defaulting of a present-but-empty value is applied inside `todosAdd`. -/
structure AddOpts where
  deadline : Option Int
  priority : Option String
  categories : Option (List String)
deriving Repr, DecidableEq

/-- From `todos.js` `add(text, opts = {})`: trim, reject empty, build the
record (`opts.deadline || null`, `opts.priority || 'medium'`,
`Array.isArray(opts.categories) ? opts.categories : []`), prepend with
`unshift`, `save()`.  The `||` defaults fire on the falsy values
`undefined`/`null`/`''`. -/
def todosAdd (env : Env) (text : String) (opts : AddOpts) (st : TodoState) : TodoState :=
  let trimmed := jsTrim text
  if trimmed = "" then st
  else
    let p := opts.priority.getD ""
    let todo : TaskRec := {
      id := genId "todo" env
      text := trimmed
      completed := false
      createdAt := env.nowMs
      deadline := opts.deadline
      priority := if p = "" then "medium" else p
      subtasks := []
      categories := opts.categories.getD [] }
    { tasks := todo :: st.tasks, saves := st.saves + 1 }

/-- The in-place mutation `todos.find(t => t.id === id).completed ^= true`
of `toggle`: flip the completion flag of the first task with the given
id, or `none` when no task matches. -/
def toggleTasks (id : String) : List TaskRec → Option (List TaskRec)
  | [] => none
  | t :: ts =>
    if t.id = id then some ({ t with completed := !t.completed } :: ts)
    else (toggleTasks id ts).map (fun ts' => t :: ts')

/-- From `todos.js` `toggle(id)`: no-op when the id is unknown, else flip
the flag and `save()`. -/
def todosToggle (id : String) (st : TodoState) : TodoState :=
  match toggleTasks id st.tasks with
  | none => st
  | some ts => { tasks := ts, saves := st.saves + 1 }

/-- The in-place mutation of `update`: replace the text of the first task
with the given id. -/
def updateTasks (id newText : String) : List TaskRec → Option (List TaskRec)
  | [] => none
  | t :: ts =>
    if t.id = id then some ({ t with text := newText } :: ts)
    else (updateTasks id newText ts).map (fun ts' => t :: ts')

/-- From `todos.js` `update(id, newText)`: trim, reject empty, no-op on
unknown id, else replace the text and `save()`. -/
def todosUpdate (id newText : String) (st : TodoState) : TodoState :=
  let trimmed := jsTrim newText
  if trimmed = "" then st
  else
    match updateTasks id trimmed st.tasks with
    | none => st
    | some ts => { tasks := ts, saves := st.saves + 1 }

/-- From `todos.js` `remove(id)`: keep every task whose id differs, then
`save()`. -/
def todosRemove (id : String) (st : TodoState) : TodoState :=
  { tasks := st.tasks.filter (fun t => t.id ≠ id), saves := st.saves + 1 }

/-- The in-place mutation of `addSubtask`: push a fresh subtask record at
the end of the subtask list of the first task with the given id. -/
def addSubtaskTasks (env : Env) (todoId newText : String) : List TaskRec → Option (List TaskRec)
  | [] => none
  | t :: ts =>
    if t.id = todoId then
      some ({ t with subtasks := t.subtasks ++
        [{ id := genId "sub" env, text := newText, completed := false }] } :: ts)
    else (addSubtaskTasks env todoId newText ts).map (fun ts' => t :: ts')

/-- From `todos.js` `addSubtask(todoId, text)`: trim, reject empty, no-op
on unknown parent id, else push `{id, text, completed:false}` and
`save()`. -/
def todosAddSubtask (env : Env) (todoId text : String) (st : TodoState) : TodoState :=
  let trimmed := jsTrim text
  if trimmed = "" then st
  else
    match addSubtaskTasks env todoId trimmed st.tasks with
    | none => st
    | some ts => { tasks := ts, saves := st.saves + 1 }

/-- A task record as it sits in storage: the four original fields are
always present, the four newer optional fields may be absent (outer
`Option` = is the property present in the stored JSON object). -/
structure StoredTask where
  id : String
  text : String
  completed : Bool
  createdAt : Int
  deadline : Option (Option Int)
  priority : Option String
  subtasks : Option (List SubtaskRec)
  categories : Option (List String)
deriving Repr, DecidableEq

/-- The spread merge `{deadline:null, priority:'medium', subtasks:[],
categories:[], ...t}` of `load()`: a property present in `t` wins, an
absent one keeps the default written before the spread. -/
def migrateTask (t : StoredTask) : TaskRec := {
  id := t.id
  text := t.text
  completed := t.completed
  createdAt := t.createdAt
  deadline := t.deadline.getD none
  priority := t.priority.getD "medium"
  subtasks := t.subtasks.getD []
  categories := t.categories.getD [] }

/-- From `todos.js` `load()`: read the stored array and map the
migration spread over it.  `load` calls no `save()`. -/
def todosLoad (raw : List StoredTask) (st : TodoState) : TodoState :=
  { tasks := raw.map migrateTask, saves := st.saves }

/-- From `todos.js` `isOverdue(todo)`: false when the deadline is absent
or the task completed, else compare the deadline's local midnight with
today's local midnight, both as day indices. -/
def isOverdue (today : Int) (t : TaskRec) : Bool :=
  match t.deadline with
  | none => false
  | some due => if t.completed then false else decide (due < today)

/-- From `todos.js` `isWarning(todo)`: false when the deadline is absent
or the task completed, else `due >= today && due <= tomorrow` with
`tomorrow` the next calendar day. -/
def isWarning (today : Int) (t : TaskRec) : Bool :=
  match t.deadline with
  | none => false
  | some due =>
    if t.completed then false else decide (today ≤ due) && decide (due ≤ today + 1)

/-- From `todos.js` `priorityValue(p)`: high 3, low 1, anything else
(including 'medium') 2. -/
def priorityValue (p : String) : Nat :=
  if p = "high" then 3 else if p = "low" then 1 else 2

/-- The filter step of `getVisible()`: the `switch (currentFilter)` over
'active' | 'completed' | 'overdue', anything else ('all') unfiltered. -/
def filterApply (currentFilter : String) (today : Int) (l : List TaskRec) : List TaskRec :=
  if currentFilter = "active" then l.filter (fun t => !t.completed)
  else if currentFilter = "completed" then l.filter (fun t => t.completed)
  else if currentFilter = "overdue" then l.filter (fun t => isOverdue today t)
  else l

/-- The 'deadline' comparator of `getVisible()` as a boolean order:
`cmp(a,b) = da - db` with a missing deadline as `Infinity`, translated to
`le a b = (da <= db)` in the order with `none` on top (two missing
deadlines compare as a `NaN` comparator result, which the sort treats as
equal, hence `true` here). -/
def leDeadline (a b : TaskRec) : Bool :=
  match a.deadline, b.deadline with
  | none, none => true
  | none, some _ => false
  | some _, none => true
  | some x, some y => decide (x ≤ y)

/-- The sort step of `getVisible()`: the `switch (currentSort)` over
'oldest' | 'deadline' | 'priority', default 'newest'.  JavaScript's
`Array.prototype.sort` is a stable sort; each numeric comparator
`cmp(a,b)` becomes the boolean order `le a b = (cmp(a,b) <= 0)` and the
stable sort is `List.mergeSort`. -/
def sortApply (currentSort : String) (l : List TaskRec) : List TaskRec :=
  if currentSort = "oldest" then
    l.mergeSort (fun a b => decide (a.createdAt ≤ b.createdAt))
  else if currentSort = "deadline" then
    l.mergeSort leDeadline
  else if currentSort = "priority" then
    l.mergeSort (fun a b => decide (priorityValue b.priority ≤ priorityValue a.priority))
  else
    l.mergeSort (fun a b => decide (b.createdAt ≤ a.createdAt))

/-- From `todos.js` `getVisible()`: copy the array, apply the current
filter, then the current sort.  The module variables `currentFilter` and
`currentSort` and the current moment are passed as arguments. -/
def getVisible (tasks : List TaskRec) (currentFilter currentSort : String)
    (today : Int) : List TaskRec :=
  sortApply currentSort (filterApply currentFilter today tasks)

/-- Link record, the element shape of the `links` array in `links.js`. -/
structure LinkRec where
  id : String
  url : String
  description : String
  createdAt : Int
deriving Repr, DecidableEq

/-- State of the Link Store module: the `links` array plus a counter of
`save()` calls. -/
structure LinkState where
  links : List LinkRec
  saves : Nat
deriving Repr, DecidableEq

/-- ASCII lower-casing of a whole string (the only case conversion the
sources rely on: both regex `/i` flags and URL hosts are ASCII). -/
def lowerStr (s : String) : String :=
  ⟨s.data.map Char.toLower⟩

/-- Boolean list-prefix test. -/
def isPrefixList : List Char → List Char → Bool
  | [], _ => true
  | _ :: _, [] => false
  | a :: as, b :: bs => a = b && isPrefixList as bs

/-- The scheme test `/^https?:\/\//i` of `links.js`: the string begins
with `http://` or `https://`, ASCII-case-insensitively. -/
def startsWithHttpScheme (u : String) : Bool :=
  isPrefixList "http://".data (lowerStr u).data ||
  isPrefixList "https://".data (lowerStr u).data

/-- The two lines of `Links.add` that prepend a protocol when the scheme
test fails. -/
def normalizeScheme (u : String) : String :=
  if startsWithHttpScheme u then u else "https://" ++ u

/-- Characters the WHATWG URL standard forbids in a host (C0 controls,
space, and the structural delimiters). -/
def forbiddenHostChar (c : Char) : Bool :=
  c.toNat < 32 || c = ' ' || c = '#' || c = '/' || c = ':' || c = '<' || c = '>' ||
  c = '?' || c = '@' || c = '[' || c = '\\' || c = ']' || c = '^' || c = '|'

/-- The characters after the last `@` of an authority (the userinfo
split of URL parsing). -/
def afterLastAt (l : List Char) : List Char :=
  (l.reverse.takeWhile (fun c => c ≠ '@')).reverse

/-- The hostname/pathname pair a successful URL parse yields. -/
structure UrlParts where
  hostname : String
  pathname : String
deriving Repr, DecidableEq

/-- Model of the browser's WHATWG `new URL(input)` constructor at the
precision the two call sites of `links.js` use (`autoDescribe` reads
`hostname` and `pathname`; the voice handler only asks whether the
constructor throws).  Restricted to absolute `http`/`https` inputs:
scheme match is case-insensitive; the authority runs to the first
`/ ? #`; userinfo before the last `@` is dropped; the port after `:`
must be digits only; the host must be non-empty and free of forbidden
host code points; `hostname` is the lowercased host and `pathname` the
path up to the query/fragment, `/` when absent.  Percent-decoding and
IDNA of hosts, path-segment normalization and the port upper bound are
outside the subset (no claim depends on them).  `none` corresponds to
the constructor throwing. -/
def parseURL (s : String) : Option UrlParts :=
  let lower := (lowerStr s).data
  let schemeRest :=
    if isPrefixList "https://".data lower then some (s.data.drop 8)
    else if isPrefixList "http://".data lower then some (s.data.drop 7)
    else none
  match schemeRest with
  | none => none
  | some rest =>
    let authEnd := fun (c : Char) => c = '/' || c = '?' || c = '#'
    let auth := rest.takeWhile (fun c => !authEnd c)
    let after := rest.dropWhile (fun c => !authEnd c)
    let hostPort := if auth.contains '@' then afterLastAt auth else auth
    let host := hostPort.takeWhile (fun c => c ≠ ':')
    let port := (hostPort.dropWhile (fun c => c ≠ ':')).drop 1
    if host.isEmpty then none
    else if host.any forbiddenHostChar then none
    else if !port.all Char.isDigit then none
    else
      let path :=
        match after with
        | '/' :: _ => after.takeWhile (fun c => c ≠ '?' && c ≠ '#')
        | _ => ['/']
      some { hostname := lowerStr ⟨host⟩, pathname := (⟨path⟩ : String) }

/-- The `hostname.replace(/^www\./, '')` step of `autoDescribe`: strip
one leading `www.`. -/
def stripWww (s : String) : String :=
  if isPrefixList "www.".data s.data then ⟨s.data.drop 4⟩ else s

/-- The `cap` helper of `autoDescribe`:
`s.charAt(0).toUpperCase() + s.slice(1)` (ASCII upper-casing). -/
def capFirst (s : String) : String :=
  match s.data with
  | [] => ""
  | c :: rest => ⟨c.toUpper :: rest⟩

/-- JavaScript `split` on a one-character separator: `''` splits to
`['']`, a separator at an end yields an empty piece there. -/
def splitOnChar (sep : Char) : List Char → List (List Char)
  | [] => [[]]
  | c :: rest =>
    if c = sep then [] :: splitOnChar sep rest
    else
      match splitOnChar sep rest with
      | h :: t => (c :: h) :: t
      | [] => [[c]]

/-- The per-segment step of `autoDescribe`:
`s.replace(/[-_]/g, ' ').trim()`. -/
def segTransform (s : String) : String :=
  jsTrim ⟨s.data.map (fun c => if c = '-' || c = '_' then ' ' else c)⟩

/-- From `links.js` `autoDescribe(url)`: parse the URL (return the input
unchanged when parsing fails), strip a leading `www.`, split the path on
`/`, de-hyphenate and trim the segments, drop the empty ones; with no
segment left return the capitalized hostname, else scan from the end for
the first segment that is not purely numeric (`/^\d+$/`) and longer than
one character, and return either that capitalized segment joined to the
hostname with an em dash, or the capitalized hostname. -/
def autoDescribe (url : String) : String :=
  match parseURL url with
  | none => url
  | some parsed =>
    let hostname := stripWww parsed.hostname
    let parts := ((splitOnChar '/' parsed.pathname.data).map
      (fun seg => segTransform ⟨seg⟩)).filter (fun s => s ≠ "")
    if parts = [] then capFirst hostname
    else
      match parts.reverse.find? (fun p => !(p.data.all Char.isDigit) && decide (1 < p.length)) with
      | some lastMeaningful => capFirst lastMeaningful ++ " — " ++ hostname
      | none => capFirst hostname

/-- From `links.js` `add(rawUrl)`: trim, reject empty, prepend `https://`
when the scheme test fails, build the record with the heuristic
description, prepend it with `unshift`, `save()`.  Note there is no URL
validation here: every non-empty trimmed input produces a record. -/
def linksAdd (env : Env) (rawUrl : String) (st : LinkState) : LinkState :=
  let trimmed := jsTrim rawUrl
  if trimmed = "" then st
  else
    let url := normalizeScheme trimmed
    let link : LinkRec := {
      id := genId "link" env
      url := url
      description := autoDescribe url
      createdAt := env.nowMs }
    { links := link :: st.links, saves := st.saves + 1 }

/-- Word characters of the regex class `\w`: ASCII letters, digits and
underscore. -/
def isWordChar (c : Char) : Bool :=
  c.isAlphanum || c = '_'

/-- The alternation of the TLD allow-list in the `looksLikeUrl` regex of
`links.js`. -/
def tldStrings : List String :=
  ["com", "org", "net", "edu", "gov", "io", "co", "uk", "dev", "app", "ai"]

/-- Match of `(com|org|...)\b` at the head of the character list: some
allow-list entry is a case-insensitive prefix whose following character
(if any) is not a word character. -/
def tldMatchAt (cs : List Char) : Bool :=
  tldStrings.any (fun t =>
    decide (lowerStr ⟨cs.take t.length⟩ = t) &&
    (match cs.drop t.length with
     | [] => true
     | c :: _ => !isWordChar c))

/-- Match of `\w+\.(tld)\b` at the head of the character list, whose
first character the caller has checked to be a word character: since `.`
is not a word character, `\w+` must consume the maximal word run, the
next character must be a literal `.`, and a TLD with a closing word
boundary must follow. -/
def runDotTld (cs : List Char) : Bool :=
  match cs.dropWhile isWordChar with
  | c :: rest => c = '.' && tldMatchAt rest
  | [] => false

/-- Scan for `\b\w+\.(tld)\b` anywhere in the list; the flag says
whether the current position sits at a word boundary suitable for the
match start (the previous character, if any, was not a word
character). -/
def looksLikeUrlScan : List Char → Bool → Bool
  | [], _ => false
  | c :: rest, atBoundary =>
    (atBoundary && isWordChar c && runDotTld (c :: rest)) ||
    looksLikeUrlScan rest (!isWordChar c)

/-- The `looksLikeUrl` test of the voice handler in `links.js`:
`/\b\w+\.(com|org|net|edu|gov|io|co|uk|dev|app|ai)\b/i.test(transcript)`.
Note the transcript itself is tested, before any spoken-word
substitution, so a match needs a literal `.` in the transcript. -/
def looksLikeUrl (transcript : String) : Bool :=
  looksLikeUrlScan transcript.data true

/-- The `transcript.replace(/\s+/g, '')` step of the voice handler:
remove every whitespace character. -/
def removeWhitespaceChars (s : String) : String :=
  ⟨s.data.filter (fun c => !jsWhitespace c)⟩

/-- The `replace(/dot/gi, '.')` step of the voice handler: replace every
non-overlapping occurrence of `dot` (any letter case) with a literal
`.`, scanning left to right. -/
def replaceDotCI : List Char → List Char
  | c1 :: c2 :: c3 :: rest =>
    if (c1 = 'd' || c1 = 'D') && (c2 = 'o' || c2 = 'O') && (c3 = 't' || c3 = 'T') then
      '.' :: replaceDotCI rest
    else
      c1 :: replaceDotCI (c2 :: c3 :: rest)
  | l => l
termination_by l => l.length

/-- Characters `encodeURIComponent` leaves unescaped: ASCII
alphanumerics and `- _ . ! ~ * ' ( )`. -/
def isUriUnreserved (c : Char) : Bool :=
  c.isAlpha || c.isDigit || c = '-' || c = '_' || c = '.' || c = '!' || c = '~' ||
  c = '*' || c.toNat = 39 || c = '(' || c = ')'

/-- Upper-case hexadecimal digit of a value below 16. -/
def hexDigitChar (n : Nat) : Char :=
  if n < 10 then Char.ofNat (48 + n) else Char.ofNat (55 + n)

/-- Percent-escape of one byte, upper-case hex as `encodeURIComponent`
produces it. -/
def percentByte (b : Nat) : List Char :=
  ['%', hexDigitChar (b / 16), hexDigitChar (b % 16)]

/-- UTF-8 bytes of one code point. -/
def utf8Bytes (c : Char) : List Nat :=
  let n := c.toNat
  if n < 128 then [n]
  else if n < 2048 then [192 + n / 64, 128 + n % 64]
  else if n < 65536 then [224 + n / 4096, 128 + (n / 64) % 64, 128 + n % 64]
  else [240 + n / 262144, 128 + (n / 4096) % 64, 128 + (n / 64) % 64, 128 + n % 64]

/-- The JavaScript global `encodeURIComponent`: keep the unreserved
characters, percent-escape the UTF-8 bytes of every other one. -/
def encodeURIComponent (s : String) : String :=
  ⟨(s.data.map (fun c =>
      if isUriUnreserved c then [c]
      else ((utf8Bytes c).map percentByte).flatten)).flatten⟩

/-- The search-engine fallback URL the voice handler builds:
`https://www.google.com/search?q=` followed by the URL-encoded
transcript. -/
def googleSearchUrl (transcript : String) : String :=
  "https://www.google.com/search?q=" ++ encodeURIComponent transcript

/-- The `onResult` voice callback of `links.js`: when the transcript
passes the `looksLikeUrl` test, strip whitespace and substitute `dot`,
and add the cleaned text if it validates as a URL after scheme
normalization; otherwise (validation failure, or no TLD-like token) add
the search-engine fallback for the verbatim transcript. -/
def linksOnResult (env : Env) (transcript : String) (st : LinkState) : LinkState :=
  if looksLikeUrl transcript then
    let cleaned : String := ⟨replaceDotCI (removeWhitespaceChars transcript).data⟩
    let candidate := normalizeScheme cleaned
    if (parseURL candidate).isSome then linksAdd env cleaned st
    else linksAdd env (googleSearchUrl transcript) st
  else linksAdd env (googleSearchUrl transcript) st

/-! ## Lemmas and claim theorems -/

/-- Trimming a string made of whitespace only gives the empty string. -/
lemma jsTrim_all_whitespace (s : String) (h : ∀ c ∈ s.data, jsWhitespace c) :
    jsTrim s = "" := by
  unfold jsTrim
  have h1 : s.data.dropWhile jsWhitespace = [] := List.dropWhile_eq_nil_iff.mpr h
  rw [h1]
  rfl

/-- C5: for text that is empty or whitespace-only, `add`, `update` and
`addSubtask` each leave the state (collection and persistence counter)
unchanged. -/
theorem whitespace_text_mutations_noop (env : Env) (st : TodoState)
    (text id : String) (opts : AddOpts)
    (h : ∀ c ∈ text.data, jsWhitespace c) :
    todosAdd env text opts st = st ∧ todosUpdate id text st = st ∧
    todosAddSubtask env id text st = st := by
  have ht : jsTrim text = "" := jsTrim_all_whitespace text h
  refine ⟨?_, ?_, ?_⟩ <;> simp [todosAdd, todosUpdate, todosAddSubtask, ht]

/-- Witness for C5 at the one-space text on the empty store. -/
theorem whitespace_text_mutations_noop_witness :
    todosAdd ⟨0, "aaaaa"⟩ " " ⟨none, none, none⟩ ⟨[], 0⟩ = ⟨[], 0⟩ ∧
    todosUpdate "t1" " " ⟨[], 0⟩ = ⟨[], 0⟩ ∧
    todosAddSubtask ⟨0, "aaaaa"⟩ "t1" " " ⟨[], 0⟩ = ⟨[], 0⟩ :=
  whitespace_text_mutations_noop ⟨0, "aaaaa"⟩ ⟨[], 0⟩ " " "t1" ⟨none, none, none⟩
    (by decide)

/-- C7: a task that is not completed and whose deadline is today's
calendar date has `isWarning` true and `isOverdue` false; a task that is
completed or has no deadline has both false. -/
theorem deadline_today_warning_not_overdue (t : TaskRec) (today : Int) :
    (t.completed = false → t.deadline = some today →
      isWarning today t = true ∧ isOverdue today t = false) ∧
    (t.completed = true ∨ t.deadline = none →
      isWarning today t = false ∧ isOverdue today t = false) := by
  constructor
  · intro hc hd
    simp [isWarning, isOverdue, hc, hd]
  · intro h
    rcases h with hc | hd
    · cases hdl : t.deadline <;> simp [isWarning, isOverdue, hc, hdl]
    · simp [isWarning, isOverdue, hd]

/-- C8: `load` defaults each missing optional field, keeps every present
field's stored value, and performs no write back to storage. -/
theorem load_migrates_defaults (raw : List StoredTask) (st : TodoState)
    (r : StoredTask) :
    (todosLoad raw st).saves = st.saves ∧
    (todosLoad raw st).tasks = raw.map migrateTask ∧
    ((migrateTask r).id = r.id ∧ (migrateTask r).text = r.text ∧
      (migrateTask r).completed = r.completed ∧
      (migrateTask r).createdAt = r.createdAt) ∧
    (r.deadline = none → (migrateTask r).deadline = none) ∧
    (∀ v, r.deadline = some v → (migrateTask r).deadline = v) ∧
    (r.priority = none → (migrateTask r).priority = "medium") ∧
    (∀ p, r.priority = some p → (migrateTask r).priority = p) ∧
    (r.subtasks = none → (migrateTask r).subtasks = []) ∧
    (∀ l, r.subtasks = some l → (migrateTask r).subtasks = l) ∧
    (r.categories = none → (migrateTask r).categories = []) ∧
    (∀ l, r.categories = some l → (migrateTask r).categories = l) := by
  refine ⟨rfl, rfl, ⟨rfl, rfl, rfl, rfl⟩, ?_, ?_, ?_, ?_, ?_, ?_, ?_, ?_⟩ <;>
    first
      | (intro h; simp [migrateTask, h])
      | (intro x h; simp [migrateTask, h])

/-- C4 counterexample: `add` called with the arbitrary priority value
`urgent` stores it verbatim, outside {low, medium, high}. -/
theorem add_arbitrary_priority_cex :
    ((todosAdd ⟨5, "zzzzz"⟩ "x" ⟨none, some "urgent", none⟩ ⟨[], 0⟩).tasks.map
      (fun t => t.priority)) = ["urgent"] ∧
    ("urgent" : String) ∉ (["low", "medium", "high"] : List String) := by
  exact ⟨by decide, by decide⟩

/-- C4 (amended): a task created by `add` has priority `medium` exactly
when `options.priority` is absent or empty (falsy), and otherwise carries
the supplied string verbatim. -/
theorem add_priority_defaulting (env : Env) (text : String) (opts : AddOpts)
    (st : TodoState) (h : jsTrim text ≠ "") :
    ((opts.priority = none ∨ opts.priority = some "") →
      ((todosAdd env text opts st).tasks.head?.map (fun t => t.priority)) =
        some "medium") ∧
    (∀ p, opts.priority = some p → p ≠ "" →
      ((todosAdd env text opts st).tasks.head?.map (fun t => t.priority)) =
        some p) := by
  constructor
  · intro hp
    rcases hp with hp | hp <;> simp [todosAdd, h, hp]
  · intro p hp hne
    simp [todosAdd, h, hp, hne]

/-- Witness for C4's amended theorem: an add with no priority option
yields a medium-priority task. -/
theorem add_priority_defaulting_witness :
    ((todosAdd ⟨5, "zzzzz"⟩ "x" ⟨none, none, none⟩ ⟨[], 0⟩).tasks.head?.map
      (fun t => t.priority)) = some "medium" :=
  (add_priority_defaulting ⟨5, "zzzzz"⟩ "x" ⟨none, none, none⟩ ⟨[], 0⟩
    (by decide)).1 (Or.inl rfl)

/-- C2 counterexample: the non-empty input `not a url` normalizes to
`https://not a url`, which does not parse as a URL, yet `add` still
creates a record instead of declining the mutation. -/
theorem malformed_url_still_added_cex :
    jsTrim "not a url" ≠ "" ∧
    parseURL (normalizeScheme (jsTrim "not a url")) = none ∧
    (linksAdd ⟨0, "abcde"⟩ "not a url" ⟨[], 0⟩).links.length = 1 ∧
    linksAdd ⟨0, "abcde"⟩ "not a url" ⟨[], 0⟩ ≠ (⟨[], 0⟩ : LinkState) := by
  exact ⟨by decide, by decide, by decide, by decide⟩

/-- C2 (amended): `add` never declines a non-empty input: even when the
normalized text does not parse as a URL it prepends one record whose URL
is the normalized text and whose description falls back to that same
text, and it performs one persistence write; no exception is surfaced
(the operation is total). -/
theorem add_total_even_when_malformed (env : Env) (rawUrl : String)
    (st : LinkState) (h1 : jsTrim rawUrl ≠ "")
    (h2 : parseURL (normalizeScheme (jsTrim rawUrl)) = none) :
    (linksAdd env rawUrl st).links =
      { id := genId "link" env, url := normalizeScheme (jsTrim rawUrl),
        description := normalizeScheme (jsTrim rawUrl),
        createdAt := env.nowMs } :: st.links ∧
    (linksAdd env rawUrl st).saves = st.saves + 1 := by
  have hdesc : autoDescribe (normalizeScheme (jsTrim rawUrl)) =
      normalizeScheme (jsTrim rawUrl) := by
    unfold autoDescribe
    rw [h2]
  refine ⟨?_, ?_⟩ <;> simp [linksAdd, h1, hdesc]

/-- Witness for C2's amended theorem at the input `not a url`. -/
theorem add_total_even_when_malformed_witness :
    (linksAdd ⟨0, "abcde"⟩ "not a url" ⟨[], 0⟩).links =
      { id := genId "link" ⟨0, "abcde"⟩,
        url := normalizeScheme (jsTrim "not a url"),
        description := normalizeScheme (jsTrim "not a url"),
        createdAt := (0 : Int) } :: [] ∧
    (linksAdd ⟨0, "abcde"⟩ "not a url" ⟨[], 0⟩).saves = 0 + 1 :=
  add_total_even_when_malformed ⟨0, "abcde"⟩ "not a url" ⟨[], 0⟩
    (by decide) (by decide)

/-- C10: a non-empty trimmed input that does not begin with `http://` or
`https://` (case-insensitively) gets `https://` prepended to the whole
input, and one record is created with exactly that URL. -/
theorem add_prepends_default_scheme (env : Env) (rawUrl : String)
    (st : LinkState) (h1 : jsTrim rawUrl ≠ "")
    (h2 : startsWithHttpScheme (jsTrim rawUrl) = false) :
    ((linksAdd env rawUrl st).links.head?.map (fun l => l.url)) =
      some ("https://" ++ jsTrim rawUrl) ∧
    (linksAdd env rawUrl st).links.length = st.links.length + 1 := by
  refine ⟨?_, ?_⟩ <;> simp [linksAdd, h1, normalizeScheme, h2]

/-- Witness for C10 at the input `ftp://example.com`: a scheme other
than http or https is not recognized, so `https://` is prepended to the
whole input. -/
theorem add_prepends_default_scheme_witness :
    ((linksAdd ⟨0, "abcde"⟩ "ftp://example.com" ⟨[], 0⟩).links.head?.map
      (fun l => l.url)) = some ("https://" ++ jsTrim "ftp://example.com") ∧
    (linksAdd ⟨0, "abcde"⟩ "ftp://example.com" ⟨[], 0⟩).links.length =
      ([] : List LinkRec).length + 1 :=
  add_prepends_default_scheme ⟨0, "abcde"⟩ "ftp://example.com" ⟨[], 0⟩
    (by decide) (by decide)

/-- C1: the voice transcript `github dot com slash octocat` does not
pass the URL-likeness test (it holds no literal `.`), so the Link Store
creates the search-engine fallback record, not
`https://github.com/octocat`. -/
theorem voice_github_transcript_search_fallback :
    ((linksOnResult ⟨0, "abcde"⟩ "github dot com slash octocat" ⟨[], 0⟩).links.map
      (fun l => l.url)) =
      ["https://www.google.com/search?q=github%20dot%20com%20slash%20octocat"] ∧
    ("https://www.google.com/search?q=github%20dot%20com%20slash%20octocat" : String) ≠
      "https://github.com/octocat" := by
  exact ⟨by decide, by decide⟩

/-- Toggling the same id twice undoes the first toggle. -/
lemma toggleTasks_toggleTasks (id : String) :
    ∀ (l l' : List TaskRec), toggleTasks id l = some l' →
      toggleTasks id l' = some l := by
  intro l
  induction l with
  | nil => intro l' h; simp [toggleTasks] at h
  | cons t ts ih =>
    intro l' h
    obtain ⟨tid, ttext, tcomp, tcreated, tdl, tpri, tsub, tcat⟩ := t
    by_cases hid : tid = id
    · subst hid
      simp only [toggleTasks, if_pos, Option.some.injEq] at h
      subst h
      simp [toggleTasks, Bool.not_not]
    · simp only [toggleTasks, if_neg hid] at h
      rcases Option.map_eq_some'.mp h with ⟨ts', hts', rfl⟩
      simp [toggleTasks, hid, ih ts' hts']

/-- Decomposition of a successful toggle: the list splits at the first
task carrying the id, and only that task's completion flag changes. -/
lemma toggleTasks_decomp (id : String) :
    ∀ l : List TaskRec, id ∈ l.map (fun t => t.id) →
      ∃ pre t post, l = pre ++ t :: post ∧ (∀ u ∈ pre, u.id ≠ id) ∧ t.id = id ∧
        toggleTasks id l =
          some (pre ++ { t with completed := !t.completed } :: post) := by
  intro l
  induction l with
  | nil => simp
  | cons t ts ih =>
    intro h
    by_cases hid : t.id = id
    · exact ⟨[], t, ts, rfl, by simp, hid, by simp [toggleTasks, hid]⟩
    · have h' : id ∈ ts.map (fun t => t.id) := by
        rcases List.mem_map.mp h with ⟨u, hu, hui⟩
        rcases List.mem_cons.mp hu with rfl | hu
        · exact absurd hui hid
        · exact List.mem_map.mpr ⟨u, hu, hui⟩
      rcases ih h' with ⟨pre, u, post, hsplit, hpre, hu, htog⟩
      refine ⟨t :: pre, u, post, by rw [hsplit]; rfl, ?_, hu, ?_⟩
      · intro v hv
        rcases List.mem_cons.mp hv with rfl | hv
        · exact hid
        · exact hpre v hv
      · simp [toggleTasks, hid, htog]

/-- C9: toggling a present id twice restores the whole collection (the
flag returns to its value, all other fields and tasks are untouched) and
adds two persistence writes; after the first application only the first
matching task's completion flag has changed and one write happened. -/
theorem toggle_twice_roundtrip (id : String) (st : TodoState)
    (h : id ∈ st.tasks.map (fun t => t.id)) :
    todosToggle id (todosToggle id st) =
      { tasks := st.tasks, saves := st.saves + 2 } ∧
    ∃ pre t post, st.tasks = pre ++ t :: post ∧ (∀ u ∈ pre, u.id ≠ id) ∧
      t.id = id ∧
      (todosToggle id st).tasks =
        pre ++ { t with completed := !t.completed } :: post ∧
      (todosToggle id st).saves = st.saves + 1 := by
  rcases toggleTasks_decomp id st.tasks h with ⟨pre, t, post, hsplit, hpre, hid, htog⟩
  have hback := toggleTasks_toggleTasks id st.tasks _ htog
  constructor
  · simp [todosToggle, htog, hback]
  · exact ⟨pre, t, post, hsplit, hpre, hid, by simp [todosToggle, htog], by
      simp [todosToggle, htog]⟩

/-- Witness for C9 on a one-task store. -/
theorem toggle_twice_roundtrip_witness :
    todosToggle "a" (todosToggle "a"
        ⟨[⟨"a", "t", false, 0, none, "medium", [], []⟩], 0⟩) =
      { tasks := [⟨"a", "t", false, 0, none, "medium", [], []⟩], saves := 0 + 2 } ∧
    ∃ pre t post,
      ([⟨"a", "t", false, 0, none, "medium", [], []⟩] : List TaskRec) =
        pre ++ t :: post ∧
      (∀ u ∈ pre, u.id ≠ "a") ∧ t.id = "a" ∧
      (todosToggle "a" ⟨[⟨"a", "t", false, 0, none, "medium", [], []⟩], 0⟩).tasks =
        pre ++ { t with completed := !t.completed } :: post ∧
      (todosToggle "a" ⟨[⟨"a", "t", false, 0, none, "medium", [], []⟩], 0⟩).saves =
        0 + 1 :=
  toggle_twice_roundtrip "a" ⟨[⟨"a", "t", false, 0, none, "medium", [], []⟩], 0⟩
    (by decide)

/-- The sort step never changes membership (it permutes the list). -/
lemma mem_sortApply (srt : String) (l : List TaskRec) (a : TaskRec) :
    a ∈ sortApply srt l ↔ a ∈ l := by
  unfold sortApply
  split_ifs <;> simp

/-- Unfolding of the overdue predicate into its three conditions. -/
lemma isOverdue_eq_true_iff (today : Int) (t : TaskRec) :
    isOverdue today t = true ↔
      t.completed = false ∧ ∃ d, t.deadline = some d ∧ d < today := by
  cases hd : t.deadline with
  | none => simp [isOverdue, hd]
  | some d => cases hc : t.completed <;> simp [isOverdue, hd, hc]

/-- C3: under the `overdue` filter, `getVisible` contains a task exactly
when it is in the collection, not completed, and has a deadline whose
day lies strictly before today's; in particular no completed task and no
deadline-less task ever appears, for any sort key and any current
moment. -/
theorem overdue_filter_membership (st : TodoState) (srt : String) (today : Int)
    (t : TaskRec) :
    t ∈ getVisible st.tasks "overdue" srt today ↔
      t ∈ st.tasks ∧ t.completed = false ∧
        ∃ d, t.deadline = some d ∧ d < today := by
  have hfa : filterApply "overdue" today st.tasks =
      st.tasks.filter (fun x => isOverdue today x) := rfl
  unfold getVisible
  rw [mem_sortApply, hfa, List.mem_filter]
  simp [isOverdue_eq_true_iff]

/-- C6: under the `priority` sort, `getVisible` is ordered by
non-increasing priority rank (every high before every medium before
every low, whatever the creation order), and tasks of equal priority
keep their relative order from the filtered collection (stability). -/
theorem priority_sort_order_and_stability (st : TodoState) (fil : String)
    (today : Int) :
    ((getVisible st.tasks fil "priority" today).Pairwise
      (fun a b => priorityValue b.priority ≤ priorityValue a.priority)) ∧
    (∀ p : String,
      (getVisible st.tasks fil "priority" today).filter
          (fun t => t.priority = p) =
        (filterApply fil today st.tasks).filter (fun t => t.priority = p)) := by
  have hdef : getVisible st.tasks fil "priority" today =
      (filterApply fil today st.tasks).mergeSort
        (fun a b => decide (priorityValue b.priority ≤ priorityValue a.priority)) := rfl
  set le : TaskRec → TaskRec → Bool :=
    fun a b => decide (priorityValue b.priority ≤ priorityValue a.priority) with hle
  set l := filterApply fil today st.tasks with hl
  have htrans : ∀ a b c : TaskRec, le a b → le b c → le a c := by
    intro a b c hab hbc
    simp only [hle, decide_eq_true_eq] at hab hbc ⊢
    omega
  have htot : ∀ a b : TaskRec, le a b || le b a := by
    intro a b
    simp only [hle, Bool.or_eq_true, decide_eq_true_eq]
    omega
  constructor
  · rw [hdef]
    refine (List.sorted_mergeSort htrans htot l).imp ?_
    intro a b hab
    simp only [hle, decide_eq_true_eq] at hab
    exact hab
  · intro p
    have h1 : List.Sublist (l.filter (fun t => decide (t.priority = p))) l :=
      List.filter_sublist l
    have hpair : (l.filter (fun t => decide (t.priority = p))).Pairwise
        (fun a b => le a b = true) := by
      apply List.pairwise_of_forall_mem_list
      intro a ha b hb
      have ha' := (List.mem_filter.mp ha).2
      have hb' := (List.mem_filter.mp hb).2
      simp only [decide_eq_true_eq] at ha' hb'
      simp [hle, ha', hb']
    have h2 : List.Sublist (l.filter (fun t => decide (t.priority = p)))
        (l.mergeSort le) :=
      List.sublist_mergeSort htrans htot hpair h1
    have h3 := h2.filter (fun t => decide (t.priority = p))
    rw [List.filter_filter] at h3
    have hself : (fun a : TaskRec =>
        decide (a.priority = p) && decide (a.priority = p)) =
        (fun a => decide (a.priority = p)) := by
      funext a
      exact Bool.and_self _
    rw [hself] at h3
    have hperm : List.Perm
        ((l.mergeSort le).filter (fun t => decide (t.priority = p)))
        (l.filter (fun t => decide (t.priority = p))) :=
      (List.mergeSort_perm l le).filter _
    have heq := h3.eq_of_length hperm.length_eq.symm
    rw [hdef]
    exact heq.symm
